import Mathlib

/-!
# Verification of `train-sklearn` callback logic

Shallow embedding of the two source files of the repository
`Yard1/train-sklearn`:

* `examples/benchmark/train_linear.py` — the `AggregateLogCallback`
  (per-worker metric aggregation);
* `ray_sklearn/skorch_approach/callbacks/skorch.py` — the skorch/Ray
  callbacks (`RayTrainCallback`, `PerformanceLogger`,
  `PytorchProfilerLogger`, `TrainCheckpoint`, `TrainReportCallback`).

Python dictionaries are modelled as association lists with distinct keys,
numbers as exact rationals, exceptions as an explicit result type, and the
external framework calls (numpy statistics, skorch helpers, io buffers,
Ray's checkpoint API) as explicit data so that the theorems can talk about
the arguments handed to them.
-/

set_option linter.unusedVariables false

namespace TrainSklearn

/-! ## Python primitives -/

/-- A Python exception, carrying its type and message. -/
inductive PyErr where
  | keyError (msg : String)
  | valueError (msg : String)
  | typeError (msg : String)
  | indexError (msg : String)
  | runtimeError (msg : String)
  deriving DecidableEq, Repr

/-- Result of running a fragment of Python code: a value or a raised
exception. -/
inductive PyRes (α : Type) where
  | ok (val : α)
  | exn (err : PyErr)
  deriving DecidableEq, Repr

/-- A Python value as it occurs in the result/history dictionaries of this
repository: a number (modelled exactly, as a rational) or a non-numeric
value (carried as an opaque string tag).  `isinstance(value, numbers.Number)`
is `isNum`. -/
inductive PyVal where
  | num (q : ℚ)
  | str (s : String)
  deriving DecidableEq, Repr

/-- Embeds `isinstance(value, numbers.Number)`. -/
def PyVal.isNum : PyVal → Bool
  | .num _ => true
  | .str _ => false

/-- A Python dict with `String` keys: an association list whose keys are
distinct (the distinctness invariant is carried as a hypothesis where it
matters). -/
abbrev PyDict (α : Type) := List (String × α)

/-- Embeds `d[k]` as a total lookup: the value at the first occurrence of `k`. -/
def lookupKey {α : Type} (k : String) : PyDict α → Option α
  | [] => none
  | (k', v) :: rest => if k' = k then some v else lookupKey k rest

/-- The keys of a dict, in order. -/
def dictKeys {α : Type} (d : PyDict α) : List String := d.map Prod.fst

/-- Embeds `d.pop(k)` / `del d[k]`: the dict with the first occurrence of `k`
removed. -/
def eraseKey {α : Type} (k : String) : PyDict α → PyDict α
  | [] => []
  | (k', v) :: rest => if k' = k then rest else (k', v) :: eraseKey k rest

/-- Python `str.startswith`, comparing code points. -/
def pyStartsWith (s pre : String) : Bool := pre.data.isPrefixOf s.data

/-- Python `str.endswith`, comparing code points. -/
def pyEndsWith (s post : String) : Bool := post.data.isSuffixOf s.data

/-- Code-point lexicographic `≤` on strings, as used by Python's `sorted`
on `str`. -/
def charListLe : List Char → List Char → Bool
  | [], _ => true
  | _ :: _, [] => false
  | a :: as, b :: bs => if a = b then charListLe as bs else decide (a < b)

/-- String comparison backing Python's `sorted`. -/
def strLe (a b : String) : Bool := charListLe a.data b.data

/-- Insert into a `strLe`-sorted list, keeping it sorted (stable). -/
def insertStr (x : String) : List String → List String
  | [] => [x]
  | y :: ys => if strLe x y then x :: y :: ys else y :: insertStr x ys

/-- Python `sorted` on a list of strings (insertion sort; the output —
the unique ascending reordering — is what matters). -/
def sortStr : List String → List String
  | [] => []
  | x :: xs => insertStr x (sortStr xs)

/-- Insert into a `≤`-sorted list of rationals, keeping it sorted. -/
def insertQ (x : ℚ) : List ℚ → List ℚ
  | [] => [x]
  | y :: ys => if x ≤ y then x :: y :: ys else y :: insertQ x ys

/-- Embeds `np.sort` on a 1-d array of numbers (ascending). -/
def sortQ : List ℚ → List ℚ
  | [] => []
  | x :: xs => insertQ x (sortQ xs)

/-! ## `examples/benchmark/train_linear.py` — aggregation

The five numpy statistics of `DEFAULT_AGGREGATE_FUNC`.  Numbers are
modelled exactly: `np.std`'s result is represented symbolically as the
square root of the (population) variance, and the `(value, index)` pairs
returned by `max_and_argmax` / `min_and_argmin` keep the index of the
first extremal element, as `np.argmax` / `np.argmin` do.  Applying a
statistic to an empty array yields `nan` for mean/median/std and raises
for max/min, as in numpy. -/

/-- The result of one aggregate statistic. -/
inductive AggVal where
  | num (q : ℚ)
  /-- The real square root of `q` (the value `np.std` returns). -/
  | sqrt (q : ℚ)
  /-- A `(value, index)` pair from `max_and_argmax` / `min_and_argmin`. -/
  | pair (q : ℚ) (idx : ℕ)
  /-- `float('nan')`, as returned by numpy statistics of empty arrays. -/
  | nan
  deriving DecidableEq, Repr

/-- Embeds `np.mean`. -/
def npMean (qs : List ℚ) : PyRes AggVal :=
  match qs with
  | [] => .ok .nan
  | _ => .ok (.num (qs.sum / qs.length))

/-- Embeds `np.median`: middle element of the sorted array, or the mean of the
two middle elements for even length. -/
def npMedian (qs : List ℚ) : PyRes AggVal :=
  match qs with
  | [] => .ok .nan
  | _ =>
    let s := sortQ qs
    let n := qs.length
    if n % 2 = 1 then .ok (.num (s.getD (n / 2) 0))
    else .ok (.num ((s.getD (n / 2 - 1) 0 + s.getD (n / 2) 0) / 2))

/-- Embeds `np.std` (population standard deviation, `ddof=0`), represented as the
square root of the variance. -/
def npStd (qs : List ℚ) : PyRes AggVal :=
  match qs with
  | [] => .ok .nan
  | _ =>
    let μ := qs.sum / qs.length
    .ok (.sqrt ((qs.map (fun x => (x - μ) ^ 2)).sum / qs.length))

/-- Helper for `max_and_argmax`: fold keeping the first maximal element
and its index. -/
def argmaxAux (best : ℚ) (bi : ℕ) (i : ℕ) : List ℚ → ℚ × ℕ
  | [] => (best, bi)
  | x :: xs => if best < x then argmaxAux x i (i + 1) xs else argmaxAux best bi (i + 1) xs

/-- Helper for `min_and_argmin`: fold keeping the first minimal element
and its index. -/
def argminAux (best : ℚ) (bi : ℕ) (i : ℕ) : List ℚ → ℚ × ℕ
  | [] => (best, bi)
  | x :: xs => if x < best then argminAux x i (i + 1) xs else argminAux best bi (i + 1) xs

/-- Embeds `max_and_argmax(val) = (np.max(val), np.argmax(val))`; raises on an
empty array as numpy does. -/
def max_and_argmax (qs : List ℚ) : PyRes AggVal :=
  match qs with
  | [] => .exn (.valueError "zero-size array to reduction operation")
  | x :: xs =>
    let p := argmaxAux x 0 1 xs
    .ok (.pair p.1 p.2)

/-- Embeds `min_and_argmin(val) = (np.min(val), np.argmin(val))`; raises on an
empty array as numpy does. -/
def min_and_argmin (qs : List ℚ) : PyRes AggVal :=
  match qs with
  | [] => .exn (.valueError "zero-size array to reduction operation")
  | x :: xs =>
    let p := argminAux x 0 1 xs
    .ok (.pair p.1 p.2)

/-- Embeds `DEFAULT_AGGREGATE_FUNC`, in dict insertion order. -/
def DEFAULT_AGGREGATE_FUNC : List (String × (List ℚ → PyRes AggVal)) :=
  [("mean", npMean), ("median", npMedian), ("std", npStd),
   ("max", max_and_argmax), ("min", min_and_argmin)]

/-- Embeds `DEFAULT_KEYS_TO_IGNORE`. -/
def DEFAULT_KEYS_TO_IGNORE : List String :=
  ["epoch", "_timestamp", "_training_iteration", "train_batch_size",
   "valid_batch_size", "lr"]

/-- Converting a collected value list to a numeric array: numpy raises a
`TypeError` as soon as a non-numeric element is involved. -/
def allNums : List PyVal → PyRes (List ℚ)
  | [] => .ok []
  | .num q :: rest =>
    match allNums rest with
    | .ok qs => .ok (q :: qs)
    | .exn e => .exn e
  | .str _ :: _ => .exn (.typeError "unsupported operand type for aggregation")

/-- Apply every function of a `DEFAULT_AGGREGATE_FUNC`-style table to the
same array, building the `aggregate` dict in order. -/
def applyFuncs (qs : List ℚ) : List (String × (List ℚ → PyRes AggVal)) →
    PyRes (PyDict AggVal)
  | [] => .ok []
  | (name, f) :: rest =>
    match f qs with
    | .exn e => .exn e
    | .ok v =>
      match applyFuncs qs rest with
      | .exn e => .exn e
      | .ok tail => .ok ((name, v) :: tail)

/-- The `aggregate` dict built for one key: every function of
`DEFAULT_AGGREGATE_FUNC` applied to the collected values. -/
def aggregateOf (vals : List PyVal) : PyRes (PyDict AggVal) :=
  match allNums vals with
  | .exn e => .exn e
  | .ok qs => applyFuncs qs DEFAULT_AGGREGATE_FUNC

/-- Embeds the list comprehension `[result[key] for result in results if key in result]`. -/
def collectKey (k : String) (results : List (PyDict PyVal)) : List PyVal :=
  results.filterMap (fun r => lookupKey k r)

/-- An entry of the `aggregated` output dict: either a value copied
verbatim from worker 0 (ignored keys) or an aggregate dict. -/
inductive OutVal where
  | raw (v : PyVal)
  | agg (d : PyDict AggVal)
  deriving DecidableEq, Repr

/-- The loop of `AggregateLogCallback.handle_result` building
`aggregate_results` from the items of worker 0's dict. -/
def buildAgg (results : List (PyDict PyVal)) :
    List (String × PyVal) → PyRes (PyDict OutVal)
  | [] => .ok []
  | (key, value) :: rest =>
    if key ∈ DEFAULT_KEYS_TO_IGNORE then
      match buildAgg results rest with
      | .exn e => .exn e
      | .ok tail => .ok ((key, .raw value) :: tail)
    else if value.isNum then
      match aggregateOf (collectKey key results) with
      | .exn e => .exn e
      | .ok agg =>
        match buildAgg results rest with
        | .exn e => .exn e
        | .ok tail => .ok ((key, .agg agg) :: tail)
    else
      buildAgg results rest

/-- Embeds the dict comprehension `{idx: val for idx, val in enumerate(results)}`. -/
def enumerate {α : Type} (start : ℕ) : List α → List (ℕ × α)
  | [] => []
  | x :: xs => (start, x) :: enumerate (start + 1) xs

/-- The `final_results` dict written by `handle_result`. -/
structure HandleResult where
  raw : List (ℕ × PyDict PyVal)
  aggregated : PyDict OutVal
  deriving DecidableEq, Repr

/-- Embeds `AggregateLogCallback.handle_result` (the construction of
`final_results`; the JSON append to the log file is outside the model).
`results_dict[0]` raises a `KeyError` when `results` is empty. -/
def handle_result (results : List (PyDict PyVal)) : PyRes HandleResult :=
  match results with
  | [] => .exn (.keyError "0")
  | w0 :: _ =>
    match buildAgg results w0 with
    | .exn e => .exn e
    | .ok agg => .ok { raw := enumerate 0 results, aggregated := agg }

/-! ### Lemmas about the aggregation loop -/

lemma lookupKey_eq_none_of_not_mem {α : Type} {k : String} :
    ∀ {d : PyDict α}, k ∉ dictKeys d → lookupKey k d = none
  | [], _ => rfl
  | (k', v) :: rest, h => by
    have hk : k' ≠ k := fun e => h (by simp [dictKeys, e])
    have hrest : k ∉ dictKeys rest := fun e => h (by simp [dictKeys] at e ⊢; exact .inr e)
    simp only [lookupKey, if_neg hk]
    exact lookupKey_eq_none_of_not_mem hrest

lemma applyFuncs_cons_ok {qs : List ℚ} {name : String}
    {f : List ℚ → PyRes AggVal} {rest : List (String × (List ℚ → PyRes AggVal))}
    {l : PyDict AggVal} (h : applyFuncs qs ((name, f) :: rest) = .ok l) :
    ∃ v tail, f qs = .ok v ∧ applyFuncs qs rest = .ok tail ∧ l = (name, v) :: tail := by
  simp only [applyFuncs] at h
  cases h1 : f qs with
  | exn e => rw [h1] at h; simp at h
  | ok v =>
    rw [h1] at h
    cases h2 : applyFuncs qs rest with
    | exn e => rw [h2] at h; simp at h
    | ok tail =>
      rw [h2] at h
      exact ⟨v, tail, rfl, rfl, (PyRes.ok.inj h).symm⟩

/-- Unpacking a successful `aggregateOf`: the aggregate dict is exactly the
five statistics, each obtained from the corresponding function of
`DEFAULT_AGGREGATE_FUNC`. -/
lemma aggregateOf_ok {vals : List PyVal} {l : PyDict AggVal}
    (h : aggregateOf vals = .ok l) :
    ∃ qs m md sd mx mn,
      allNums vals = .ok qs ∧
      npMean qs = .ok m ∧ npMedian qs = .ok md ∧ npStd qs = .ok sd ∧
      max_and_argmax qs = .ok mx ∧ min_and_argmin qs = .ok mn ∧
      l = [("mean", m), ("median", md), ("std", sd), ("max", mx), ("min", mn)] := by
  cases han : allNums vals with
  | exn e => rw [aggregateOf, han] at h; simp at h
  | ok qs =>
    have h' : applyFuncs qs DEFAULT_AGGREGATE_FUNC = .ok l := by
      rw [aggregateOf, han] at h; exact h
    rw [DEFAULT_AGGREGATE_FUNC] at h'
    obtain ⟨m, l1, hm, hh1, hl⟩ := applyFuncs_cons_ok h'
    obtain ⟨md, l2, hmd, hh2, hl1⟩ := applyFuncs_cons_ok hh1
    obtain ⟨sd, l3, hsd, hh3, hl2⟩ := applyFuncs_cons_ok hh2
    obtain ⟨mx, l4, hmx, hh4, hl3⟩ := applyFuncs_cons_ok hh3
    obtain ⟨mn, l5, hmn, hh5, hl4⟩ := applyFuncs_cons_ok hh4
    have h5 : l5 = [] := by simpa [applyFuncs] using (PyRes.ok.inj hh5).symm
    refine ⟨qs, m, md, sd, mx, mn, rfl, hm, hmd, hsd, hmx, hmn, ?_⟩
    rw [hl, hl1, hl2, hl3, hl4, h5]

/-- A numeric, non-ignored key of the iterated dict ends up mapped to its
aggregate dict in the output of the aggregation loop. -/
lemma buildAgg_lookup_num {results : List (PyDict PyVal)} {k : String} {v : PyVal}
    (hig : k ∉ DEFAULT_KEYS_TO_IGNORE) (hnum : v.isNum = true) :
    ∀ {items : List (String × PyVal)} {out : PyDict OutVal},
      buildAgg results items = .ok out → lookupKey k items = some v →
      ∃ l, aggregateOf (collectKey k results) = .ok l ∧
        lookupKey k out = some (.agg l) := by
  intro items
  induction items with
  | nil => intro out h hk; simp [lookupKey] at hk
  | cons hd rest ih =>
    obtain ⟨k0, v0⟩ := hd
    intro out h hk
    rw [buildAgg] at h
    rw [lookupKey] at hk
    by_cases hkk : k0 = k
    · subst hkk
      rw [if_pos rfl] at hk
      obtain rfl : v0 = v := Option.some.inj hk
      rw [if_neg hig, hnum, if_pos rfl] at h
      cases hagg : aggregateOf (collectKey k0 results) with
      | exn e => rw [hagg] at h; simp at h
      | ok l =>
        rw [hagg] at h
        cases hrest : buildAgg results rest with
        | exn e => rw [hrest] at h; simp at h
        | ok tail =>
          rw [hrest] at h
          obtain rfl : (k0, OutVal.agg l) :: tail = out := PyRes.ok.inj h
          exact ⟨l, rfl, by simp [lookupKey]⟩
    · rw [if_neg hkk] at hk
      split at h
      · cases hrest : buildAgg results rest with
        | exn e => rw [hrest] at h; simp at h
        | ok tail =>
          rw [hrest] at h
          obtain rfl : (k0, OutVal.raw v0) :: tail = out := PyRes.ok.inj h
          obtain ⟨l, hl, hlook⟩ := ih hrest hk
          exact ⟨l, hl, by rw [lookupKey, if_neg hkk]; exact hlook⟩
      · split at h
        · cases hagg : aggregateOf (collectKey k0 results) with
          | exn e => rw [hagg] at h; simp at h
          | ok l0 =>
            rw [hagg] at h
            cases hrest : buildAgg results rest with
            | exn e => rw [hrest] at h; simp at h
            | ok tail =>
              rw [hrest] at h
              obtain rfl : (k0, OutVal.agg l0) :: tail = out := PyRes.ok.inj h
              obtain ⟨l, hl, hlook⟩ := ih hrest hk
              exact ⟨l, hl, by rw [lookupKey, if_neg hkk]; exact hlook⟩
        · exact ih h hk

/-- A key absent from the iterated dict is absent from the output of the
aggregation loop. -/
lemma buildAgg_lookup_none {results : List (PyDict PyVal)} {k : String} :
    ∀ {items : List (String × PyVal)} {out : PyDict OutVal},
      buildAgg results items = .ok out → lookupKey k items = none →
      lookupKey k out = none := by
  intro items
  induction items with
  | nil => intro out h hk; obtain rfl : ([] : PyDict OutVal) = out := PyRes.ok.inj h; rfl
  | cons hd rest ih =>
    obtain ⟨k0, v0⟩ := hd
    intro out h hk
    rw [buildAgg] at h
    rw [lookupKey] at hk
    by_cases hkk : k0 = k
    · rw [if_pos hkk] at hk; simp at hk
    · rw [if_neg hkk] at hk
      split at h
      · cases hrest : buildAgg results rest with
        | exn e => rw [hrest] at h; simp at h
        | ok tail =>
          rw [hrest] at h
          obtain rfl : (k0, OutVal.raw v0) :: tail = out := PyRes.ok.inj h
          rw [lookupKey, if_neg hkk]
          exact ih hrest hk
      · split at h
        · cases hagg : aggregateOf (collectKey k0 results) with
          | exn e => rw [hagg] at h; simp at h
          | ok l0 =>
            rw [hagg] at h
            cases hrest : buildAgg results rest with
            | exn e => rw [hrest] at h; simp at h
            | ok tail =>
              rw [hrest] at h
              obtain rfl : (k0, OutVal.agg l0) :: tail = out := PyRes.ok.inj h
              rw [lookupKey, if_neg hkk]
              exact ih hrest hk
        · exact ih h hk

/-- An ignored key of the iterated dict is copied verbatim to the output of
the aggregation loop. -/
lemma buildAgg_lookup_ignored {results : List (PyDict PyVal)} {k : String} {v : PyVal}
    (hig : k ∈ DEFAULT_KEYS_TO_IGNORE) :
    ∀ {items : List (String × PyVal)} {out : PyDict OutVal},
      buildAgg results items = .ok out → lookupKey k items = some v →
      lookupKey k out = some (.raw v) := by
  intro items
  induction items with
  | nil => intro out h hk; simp [lookupKey] at hk
  | cons hd rest ih =>
    obtain ⟨k0, v0⟩ := hd
    intro out h hk
    rw [buildAgg] at h
    rw [lookupKey] at hk
    by_cases hkk : k0 = k
    · subst hkk
      rw [if_pos rfl] at hk
      obtain rfl : v0 = v := Option.some.inj hk
      rw [if_pos hig] at h
      cases hrest : buildAgg results rest with
      | exn e => rw [hrest] at h; simp at h
      | ok tail =>
        rw [hrest] at h
        obtain rfl : (k0, OutVal.raw v0) :: tail = out := PyRes.ok.inj h
        simp [lookupKey]
    · rw [if_neg hkk] at hk
      split at h
      · cases hrest : buildAgg results rest with
        | exn e => rw [hrest] at h; simp at h
        | ok tail =>
          rw [hrest] at h
          obtain rfl : (k0, OutVal.raw v0) :: tail = out := PyRes.ok.inj h
          rw [lookupKey, if_neg hkk]
          exact ih hrest hk
      · split at h
        · cases hagg : aggregateOf (collectKey k0 results) with
          | exn e => rw [hagg] at h; simp at h
          | ok l0 =>
            rw [hagg] at h
            cases hrest : buildAgg results rest with
            | exn e => rw [hrest] at h; simp at h
            | ok tail =>
              rw [hrest] at h
              obtain rfl : (k0, OutVal.agg l0) :: tail = out := PyRes.ok.inj h
              rw [lookupKey, if_neg hkk]
              exact ih hrest hk
        · exact ih h hk

/-- A non-numeric, non-ignored key of a dict with distinct keys is dropped
by the aggregation loop. -/
lemma buildAgg_lookup_nonnum {results : List (PyDict PyVal)} {k : String} {v : PyVal}
    (hig : k ∉ DEFAULT_KEYS_TO_IGNORE) (hnn : v.isNum = false) :
    ∀ {items : List (String × PyVal)} {out : PyDict OutVal},
      (dictKeys items).Nodup →
      buildAgg results items = .ok out → lookupKey k items = some v →
      lookupKey k out = none := by
  intro items
  induction items with
  | nil => intro out _ h hk; simp [lookupKey] at hk
  | cons hd rest ih =>
    obtain ⟨k0, v0⟩ := hd
    intro out hnd h hk
    simp only [dictKeys, List.map_cons, List.nodup_cons] at hnd
    have hnd' : (dictKeys rest).Nodup := hnd.2
    rw [buildAgg] at h
    rw [lookupKey] at hk
    by_cases hkk : k0 = k
    · subst hkk
      rw [if_pos rfl] at hk
      obtain rfl : v0 = v := Option.some.inj hk
      rw [if_neg hig, hnn] at h
      simp only [Bool.false_eq_true, if_false] at h
      have hkabs : k0 ∉ dictKeys rest := hnd.1
      exact buildAgg_lookup_none h (lookupKey_eq_none_of_not_mem hkabs)
    · rw [if_neg hkk] at hk
      split at h
      · cases hrest : buildAgg results rest with
        | exn e => rw [hrest] at h; simp at h
        | ok tail =>
          rw [hrest] at h
          obtain rfl : (k0, OutVal.raw v0) :: tail = out := PyRes.ok.inj h
          rw [lookupKey, if_neg hkk]
          exact ih hnd' hrest hk
      · split at h
        · cases hagg : aggregateOf (collectKey k0 results) with
          | exn e => rw [hagg] at h; simp at h
          | ok l0 =>
            rw [hagg] at h
            cases hrest : buildAgg results rest with
            | exn e => rw [hrest] at h; simp at h
            | ok tail =>
              rw [hrest] at h
              obtain rfl : (k0, OutVal.agg l0) :: tail = out := PyRes.ok.inj h
              rw [lookupKey, if_neg hkk]
              exact ih hnd' hrest hk
        · exact ih hnd' h hk

/-! ### Claims C1 and C9 -/

/-- C1: for every non-empty list of per-worker result dictionaries passed
to `AggregateLogCallback.handle_result` (that completes without raising),
each key of the first worker's dictionary that is not in
`DEFAULT_KEYS_TO_IGNORE` and whose value is a number is mapped in the
`aggregated` output to a dictionary with exactly the five statistics
`mean`, `median`, `std`, `max` and `min`, each computed by the
corresponding function of `DEFAULT_AGGREGATE_FUNC` applied to the values
of that key across all workers that contain it. -/
theorem C1_aggregated_five_stats (w0 : PyDict PyVal) (ws : List (PyDict PyVal))
    (out : HandleResult) (hok : handle_result (w0 :: ws) = .ok out)
    (k : String) (v : PyVal) (hk : lookupKey k w0 = some v)
    (hig : k ∉ DEFAULT_KEYS_TO_IGNORE) (hnum : v.isNum = true) :
    ∃ qs m md sd mx mn,
      allNums (collectKey k (w0 :: ws)) = .ok qs ∧
      npMean qs = .ok m ∧ npMedian qs = .ok md ∧ npStd qs = .ok sd ∧
      max_and_argmax qs = .ok mx ∧ min_and_argmin qs = .ok mn ∧
      lookupKey k out.aggregated =
        some (.agg [("mean", m), ("median", md), ("std", sd),
                    ("max", mx), ("min", mn)]) := by
  rw [handle_result] at hok
  cases hb : buildAgg (w0 :: ws) w0 with
  | exn e => rw [hb] at hok; simp at hok
  | ok agg =>
    rw [hb] at hok
    obtain rfl := PyRes.ok.inj hok
    obtain ⟨l, hl, hlook⟩ := buildAgg_lookup_num hig hnum hb hk
    obtain ⟨qs, m, md, sd, mx, mn, hqs, hm, hmd, hsd, hmx, hmn, rfl⟩ := aggregateOf_ok hl
    exact ⟨qs, m, md, sd, mx, mn, hqs, hm, hmd, hsd, hmx, hmn, hlook⟩

/-- Worker 0 of the example input for C1/C9 witnesses. -/
def w0ex : PyDict PyVal := [("epoch", PyVal.num 1), ("loss", PyVal.num 2)]

/-- The other workers of the example input for the C1 witness. -/
def wsex : List (PyDict PyVal) := [[("loss", PyVal.num 4)]]

/-- The output `handle_result` produces on `w0ex :: wsex`. -/
def outEx1 : HandleResult :=
  { raw := [(0, [("epoch", PyVal.num 1), ("loss", PyVal.num 2)]),
            (1, [("loss", PyVal.num 4)])],
    aggregated := [("epoch", .raw (.num 1)),
      ("loss", .agg [("mean", .num 3), ("median", .num 3), ("std", .sqrt 1),
                     ("max", .pair 4 1), ("min", .pair 2 0)])] }

theorem C1_witness :
    ∃ qs m md sd mx mn,
      allNums (collectKey "loss" (w0ex :: wsex)) = .ok qs ∧
      npMean qs = .ok m ∧ npMedian qs = .ok md ∧ npStd qs = .ok sd ∧
      max_and_argmax qs = .ok mx ∧ min_and_argmin qs = .ok mn ∧
      lookupKey "loss" outEx1.aggregated =
        some (.agg [("mean", m), ("median", md), ("std", sd),
                    ("max", mx), ("min", mn)]) :=
  C1_aggregated_five_stats w0ex wsex outEx1
    (by
      simp only [w0ex, wsex, outEx1, handle_result, buildAgg, aggregateOf, allNums,
        applyFuncs, DEFAULT_AGGREGATE_FUNC, npMean, npMedian, npStd, max_and_argmax,
        min_and_argmin, collectKey, lookupKey, enumerate, DEFAULT_KEYS_TO_IGNORE,
        sortQ, insertQ, argmaxAux, argminAux, List.filterMap, PyVal.isNum,
        List.mem_cons, List.mem_singleton]
      norm_num
      simp)
    "loss" (PyVal.num 2) rfl (by decide) rfl

/-- C9: `AggregateLogCallback.handle_result` only considers keys of the
first worker's result dictionary: the `raw` output is the full enumerated
result list, a key absent from worker 0's dict is absent from the
`aggregated` output, keys in `DEFAULT_KEYS_TO_IGNORE` are copied verbatim
from worker 0, and non-numeric non-ignored keys of worker 0 are dropped
from the `aggregated` output entirely. -/
theorem C9_only_first_worker_keys (w0 : PyDict PyVal) (ws : List (PyDict PyVal))
    (out : HandleResult) (hok : handle_result (w0 :: ws) = .ok out)
    (hnd : (dictKeys w0).Nodup) :
    out.raw = enumerate 0 (w0 :: ws) ∧
    (∀ k, k ∉ dictKeys w0 → lookupKey k out.aggregated = none) ∧
    (∀ k v, k ∈ DEFAULT_KEYS_TO_IGNORE → lookupKey k w0 = some v →
      lookupKey k out.aggregated = some (.raw v)) ∧
    (∀ k v, k ∉ DEFAULT_KEYS_TO_IGNORE → v.isNum = false → lookupKey k w0 = some v →
      lookupKey k out.aggregated = none) := by
  rw [handle_result] at hok
  cases hb : buildAgg (w0 :: ws) w0 with
  | exn e => rw [hb] at hok; simp at hok
  | ok agg =>
    rw [hb] at hok
    obtain rfl := PyRes.ok.inj hok
    refine ⟨rfl, ?_, ?_, ?_⟩
    · intro k hkm
      exact buildAgg_lookup_none hb (lookupKey_eq_none_of_not_mem hkm)
    · intro k v hig hk
      exact buildAgg_lookup_ignored hig hb hk
    · intro k v hig hnn hk
      exact buildAgg_lookup_nonnum hig hnn hnd hb hk

/-- Worker 0 of the example input for the C9 witness. -/
def w0ex9 : PyDict PyVal := [("epoch", PyVal.num 1), ("note", PyVal.str "x")]

/-- The other workers of the example input for the C9 witness: worker 1
has a key `loss` that worker 0 lacks. -/
def wsex9 : List (PyDict PyVal) := [[("loss", PyVal.num 4)]]

/-- The output `handle_result` produces on `w0ex9 :: wsex9`. -/
def outEx9 : HandleResult :=
  { raw := [(0, [("epoch", PyVal.num 1), ("note", PyVal.str "x")]),
            (1, [("loss", PyVal.num 4)])],
    aggregated := [("epoch", .raw (.num 1))] }

theorem C9_witness :
    outEx9.raw = enumerate 0 (w0ex9 :: wsex9) ∧
    lookupKey "loss" outEx9.aggregated = none ∧
    lookupKey "epoch" outEx9.aggregated = some (.raw (.num 1)) ∧
    lookupKey "note" outEx9.aggregated = none := by
  have h := C9_only_first_worker_keys w0ex9 wsex9 outEx9 rfl (by decide)
  exact ⟨h.1, h.2.1 "loss" (by decide), h.2.2.1 "epoch" (.num 1) (by decide) rfl,
         h.2.2.2 "note" (.str "x") (by decide) rfl rfl⟩

/-! ## `TrainReportCallback._sorted_keys` (claim C7)

`filter_log_keys` is imported from skorch (`skorch.callbacks.logging`), an
external dependency; it is embedded from the skorch source: it drops
`'epoch'`, the ignored keys, keys ending in `'_best'` or `'_batch_count'`,
and keys starting with `'event_'`. -/

/-- skorch's `filter_log_keys(keys, keys_ignored)` (external dependency,
embedded from the skorch source). -/
def filter_log_keys (keys : List String) (keysIgnored : List String) : List String :=
  keys.filter (fun key =>
    !(key == "epoch" || keysIgnored.contains key || pyEndsWith key "_best" ||
      pyEndsWith key "_batch_count" || pyStartsWith key "event_"))

/-- Embeds `TrainReportCallback._sorted_keys(keys)`, with the callback's
`keys_ignored_` set as first argument.  The four appended segments are the
four append loops of the source. -/
def tr_sorted_keys (keysIgnored : List String) (keys : List String) : List String :=
  (if keys.contains "epoch" && !(keysIgnored.contains "epoch") then ["epoch"] else [])
  ++ (filter_log_keys (sortStr keys) keysIgnored).filter (fun key => !(key == "dur_s"))
  ++ (sortStr keys).filter (fun key =>
        pyStartsWith key "event_" && !(keysIgnored.contains key))
  ++ (if keys.contains "dur_s" && !(keysIgnored.contains "dur_s") then ["dur_s"] else [])

/-- The middle segment as claim C7 words it: every key that is not
ignored, does not end in `'_best'`, does not start with `'event_'`, and is
not `'dur_s'` (it omits the `'epoch'` and `'_batch_count'` exclusions of
`filter_log_keys`). -/
def sortedKeysClaimed (keysIgnored : List String) (keys : List String) : List String :=
  (if keys.contains "epoch" && !(keysIgnored.contains "epoch") then ["epoch"] else [])
  ++ (sortStr keys).filter (fun key =>
        !(keysIgnored.contains key) && !(pyEndsWith key "_best") &&
        !(pyStartsWith key "event_") && !(key == "dur_s"))
  ++ (sortStr keys).filter (fun key =>
        pyStartsWith key "event_" && !(keysIgnored.contains key))
  ++ (if keys.contains "dur_s" && !(keysIgnored.contains "dur_s") then ["dur_s"] else [])

/-- The middle segment as the amended claim words it: additionally not
`'epoch'` and not ending in `'_batch_count'`. -/
def sortedKeysAmended (keysIgnored : List String) (keys : List String) : List String :=
  (if keys.contains "epoch" && !(keysIgnored.contains "epoch") then ["epoch"] else [])
  ++ (sortStr keys).filter (fun key =>
        !(keysIgnored.contains key) && !(key == "epoch") && !(pyEndsWith key "_best") &&
        !(pyEndsWith key "_batch_count") && !(pyStartsWith key "event_") &&
        !(key == "dur_s"))
  ++ (sortStr keys).filter (fun key =>
        pyStartsWith key "event_" && !(keysIgnored.contains key))
  ++ (if keys.contains "dur_s" && !(keysIgnored.contains "dur_s") then ["dur_s"] else [])

/-- C7 counterexample: the claim's description of the alphabetical middle
segment disagrees with `_sorted_keys` on a key ending in `'_batch_count'`
(kept by the claim, dropped by the code) and on `'epoch'` (listed once by
the code, but the claim's middle-segment criteria admit it a second
time). -/
theorem C7_counterexample :
    sortedKeysClaimed [] ["train_batch_count"] = ["train_batch_count"] ∧
    tr_sorted_keys [] ["train_batch_count"] = [] ∧
    sortedKeysClaimed [] ["epoch"] = ["epoch", "epoch"] ∧
    tr_sorted_keys [] ["epoch"] = ["epoch"] := by decide

/-- C7 (amended): `_sorted_keys` returns `'epoch'` first if present and
not ignored; then, in alphabetical order, every key that is not ignored,
is not `'epoch'`, does not end in `'_best'` or `'_batch_count'`, does not
start with `'event_'`, and is not `'dur_s'`; then every non-ignored key
starting with `'event_'` in alphabetical order; and `'dur_s'` last if
present and not ignored. -/
theorem C7_sorted_keys_amended (keysIgnored keys : List String) :
    tr_sorted_keys keysIgnored keys = sortedKeysAmended keysIgnored keys := by
  rw [tr_sorted_keys, sortedKeysAmended, filter_log_keys, List.filter_filter]
  have hmid : ∀ a : String,
      (!(a == "dur_s") &&
        !(a == "epoch" || keysIgnored.contains a || pyEndsWith a "_best" ||
          pyEndsWith a "_batch_count" || pyStartsWith a "event_"))
      = (!(keysIgnored.contains a) && !(a == "epoch") && !(pyEndsWith a "_best") &&
         !(pyEndsWith a "_batch_count") && !(pyStartsWith a "event_") &&
         !(a == "dur_s")) := by
    intro a
    cases h1 : a == "dur_s" <;> cases h2 : a == "epoch" <;>
      cases h3 : keysIgnored.contains a <;> cases h4 : pyEndsWith a "_best" <;>
      cases h5 : pyEndsWith a "_batch_count" <;> cases h6 : pyStartsWith a "event_" <;>
      simp
  rw [List.filter_congr (fun a _ => hmid a)]

/-! ## skorch history and net

The slice of skorch's `History`/`NeuralNet` machinery the callbacks
touch: a history is a list of epoch rows, each carrying its epoch-level
entries and its list of batch rows; `record` appends an entry to the last
epoch row, `record_batch` to the last batch row of the last epoch row.
`net.save_params(f_name=buffer)` is modelled by a `serialize` map from the
parameter name to the serialized payload (or a raised exception). -/

/-- One epoch row of a skorch `History`. -/
structure EpochRow where
  entries : PyDict PyVal
  batches : List (PyDict PyVal)
  deriving DecidableEq, Repr

/-- A skorch `History`. -/
abbrev History := List EpochRow

/-- Apply `f` to the last element of a list. -/
def mapLast {α : Type} (f : α → α) : List α → List α
  | [] => []
  | [x] => [f x]
  | x :: y :: xs => x :: mapLast f (y :: xs)

/-- Embeds `history.record(key, value)`. -/
def record (h : History) (k : String) (v : PyVal) : History :=
  mapLast (fun row => { row with entries := row.entries ++ [(k, v)] }) h

/-- Embeds `history.record_batch(key, value)`. -/
def record_batch (h : History) (k : String) (v : PyVal) : History :=
  mapLast (fun row => { row with batches := mapLast (fun b => b ++ [(k, v)]) row.batches }) h

/-- The slice of a skorch `NeuralNet` the callbacks use. -/
structure Net where
  /-- `net.save_params(f_name=buf)`: the payload written into the buffer
  for a given parameter name, or the exception the call raises. -/
  serialize : String → PyRes String
  history : History
  verbose : Bool

lemma mapLast_append_singleton {α : Type} (f : α → α) :
    ∀ (l : List α) (x : α), mapLast f (l ++ [x]) = l ++ [f x]
  | [], x => rfl
  | [y], x => rfl
  | y :: z :: xs, x => by
    have ih := mapLast_append_singleton f (z :: xs) x
    show y :: mapLast f ((z :: xs) ++ [x]) = y :: ((z :: xs) ++ [f x])
    rw [ih]

/-! ## `RayTrainCallback` (claim C5) -/

/-- A bare callback object (the attribute dict of a `Callback`
instance). -/
structure CallbackObj where
  attrs : PyDict PyVal
  deriving DecidableEq, Repr

/-- The eight hooks `RayTrainCallback` adds to skorch's hook sequence.
Each base-class method has an empty body (a docstring only): it returns
`None` and leaves the callback object and the net unchanged. -/
def RayTrainCallback_hooks :
    List (String × (CallbackObj → Net → CallbackObj × Net × Option PyVal)) :=
  [("on_forward_pass_begin", fun self net => (self, net, none)),
   ("on_forward_pass_end", fun self net => (self, net, none)),
   ("on_backward_pass_begin", fun self net => (self, net, none)),
   ("on_backward_pass_end", fun self net => (self, net, none)),
   ("on_X_to_device_begin", fun self net => (self, net, none)),
   ("on_X_to_device_end", fun self net => (self, net, none)),
   ("on_y_to_device_begin", fun self net => (self, net, none)),
   ("on_y_to_device_end", fun self net => (self, net, none))]

/-- C5: the callback system adds no state machine of its own: the eight
hooks `RayTrainCallback` adds to skorch's hook sequence are exactly
`on_forward_pass_begin/end`, `on_backward_pass_begin/end`,
`on_X_to_device_begin/end`, `on_y_to_device_begin/end`, and each of them
is, on the base class, a no-op that returns `None` and leaves both the net
and the callback object unchanged. -/
theorem C5_base_hooks_are_noops :
    RayTrainCallback_hooks.map Prod.fst =
      ["on_forward_pass_begin", "on_forward_pass_end",
       "on_backward_pass_begin", "on_backward_pass_end",
       "on_X_to_device_begin", "on_X_to_device_end",
       "on_y_to_device_begin", "on_y_to_device_end"] ∧
    ∀ name hook, (name, hook) ∈ RayTrainCallback_hooks →
      ∀ self net, hook self net = (self, net, none) := by
  refine ⟨rfl, ?_⟩
  intro name hook hmem self net
  simp only [RayTrainCallback_hooks, List.mem_cons, List.not_mem_nil, or_false,
    Prod.mk.injEq] at hmem
  rcases hmem with ⟨_, rfl⟩ | ⟨_, rfl⟩ | ⟨_, rfl⟩ | ⟨_, rfl⟩ |
    ⟨_, rfl⟩ | ⟨_, rfl⟩ | ⟨_, rfl⟩ | ⟨_, rfl⟩ <;> rfl

theorem C5_witness :
    (RayTrainCallback_hooks.map Prod.fst).length = 8 ∧
    ∀ hook, ("on_forward_pass_begin", hook) ∈ RayTrainCallback_hooks →
      hook ⟨[]⟩ ⟨fun _ => .exn (.keyError ""), [], false⟩ =
        (⟨[]⟩, ⟨fun _ => .exn (.keyError ""), [], false⟩, none) := by
  have h := C5_base_hooks_are_noops
  exact ⟨by rw [h.1]; rfl, fun hook hm =>
    h.2 "on_forward_pass_begin" hook hm ⟨[]⟩ ⟨fun _ => .exn (.keyError ""), [], false⟩⟩

/-! ## `PerformanceLogger` (claim C6) -/

/-- The timing state of a `PerformanceLogger` (the four `*_time_`
attributes).  Each `on_*_begin` hook stores `time.time()` and each
`on_*_end` hook replaces it by the elapsed duration, so the hooks take the
current clock reading as an argument. -/
structure PerformanceLogger where
  forward_pass_time_ : ℚ
  backward_pass_time_ : ℚ
  X_to_device_time_ : ℚ
  y_to_device_time_ : ℚ
  deriving DecidableEq, Repr

def PerformanceLogger.on_forward_pass_begin (self : PerformanceLogger) (now : ℚ) :
    PerformanceLogger := { self with forward_pass_time_ := now }

def PerformanceLogger.on_forward_pass_end (self : PerformanceLogger) (now : ℚ) :
    PerformanceLogger := { self with forward_pass_time_ := now - self.forward_pass_time_ }

def PerformanceLogger.on_backward_pass_begin (self : PerformanceLogger) (now : ℚ) :
    PerformanceLogger := { self with backward_pass_time_ := now }

def PerformanceLogger.on_backward_pass_end (self : PerformanceLogger) (now : ℚ) :
    PerformanceLogger := { self with backward_pass_time_ := now - self.backward_pass_time_ }

def PerformanceLogger.on_X_to_device_begin (self : PerformanceLogger) (now : ℚ) :
    PerformanceLogger := { self with X_to_device_time_ := now }

def PerformanceLogger.on_X_to_device_end (self : PerformanceLogger) (now : ℚ) :
    PerformanceLogger := { self with X_to_device_time_ := now - self.X_to_device_time_ }

def PerformanceLogger.on_y_to_device_begin (self : PerformanceLogger) (now : ℚ) :
    PerformanceLogger := { self with y_to_device_time_ := now }

def PerformanceLogger.on_y_to_device_end (self : PerformanceLogger) (now : ℚ) :
    PerformanceLogger := { self with y_to_device_time_ := now - self.y_to_device_time_ }

/-- Embeds `PerformanceLogger.on_batch_end`: records the three batch-level
history entries. -/
def PerformanceLogger.on_batch_end (self : PerformanceLogger) (net : Net) : Net :=
  let h1 := record_batch net.history "to_device_dur_s"
    (.num (self.X_to_device_time_ + self.y_to_device_time_))
  let h2 := record_batch h1 "forward_pass_dur_s" (.num self.forward_pass_time_)
  let h3 := record_batch h2 "backward_pass_dur_s" (.num self.backward_pass_time_)
  { net with history := h3 }

/-- One training batch as seen by a `PerformanceLogger`: the hook pairs
fire around the host-to-device copies of `X` and `y`, the forward pass and
the backward pass (each `begin`/`end` hook reading the clock), then
`on_batch_end` runs. -/
def runBatch (self : PerformanceLogger) (net : Net)
    (tX1 tX2 tY1 tY2 tF1 tF2 tB1 tB2 : ℚ) : PerformanceLogger × Net :=
  let s1 := self.on_X_to_device_begin tX1
  let s2 := s1.on_X_to_device_end tX2
  let s3 := s2.on_y_to_device_begin tY1
  let s4 := s3.on_y_to_device_end tY2
  let s5 := s4.on_forward_pass_begin tF1
  let s6 := s5.on_forward_pass_end tF2
  let s7 := s6.on_backward_pass_begin tB1
  let s8 := s7.on_backward_pass_end tB2
  (s8, s8.on_batch_end net)

/-- C6: for every batch processed with a `PerformanceLogger` attached, the
hook pairs measure the host-to-device copy, forward pass and backward
pass, and `on_batch_end` records exactly three batch-level history
entries: `to_device_dur_s` equal to the sum of the `X` and `y` copy
durations, `forward_pass_dur_s`, and `backward_pass_dur_s`. -/
theorem C6_three_batch_entries (self : PerformanceLogger) (net : Net)
    (rows : List EpochRow) (es : PyDict PyVal) (bs : List (PyDict PyVal))
    (b : PyDict PyVal) (tX1 tX2 tY1 tY2 tF1 tF2 tB1 tB2 : ℚ)
    (hh : net.history = rows ++ [⟨es, bs ++ [b]⟩]) :
    (runBatch self net tX1 tX2 tY1 tY2 tF1 tF2 tB1 tB2).2.history =
      rows ++ [⟨es, bs ++
        [b ++ [("to_device_dur_s", .num ((tX2 - tX1) + (tY2 - tY1))),
               ("forward_pass_dur_s", .num (tF2 - tF1)),
               ("backward_pass_dur_s", .num (tB2 - tB1))]]⟩] := by
  simp only [runBatch, PerformanceLogger.on_X_to_device_begin,
    PerformanceLogger.on_X_to_device_end, PerformanceLogger.on_y_to_device_begin,
    PerformanceLogger.on_y_to_device_end, PerformanceLogger.on_forward_pass_begin,
    PerformanceLogger.on_forward_pass_end, PerformanceLogger.on_backward_pass_begin,
    PerformanceLogger.on_backward_pass_end, PerformanceLogger.on_batch_end,
    record_batch, hh, mapLast_append_singleton, List.append_assoc, List.singleton_append,
    List.cons_append, List.nil_append]

/-- C6 witness. -/
theorem C6_witness :
    (runBatch ⟨0, 0, 0, 0⟩ ⟨fun _ => .exn (.keyError ""), [⟨[], [[]]⟩], false⟩
        1 2 3 4 5 6 7 8).2.history =
      [⟨[], [[("to_device_dur_s", .num ((2 - 1) + (4 - 3))),
              ("forward_pass_dur_s", .num (6 - 5)),
              ("backward_pass_dur_s", .num (8 - 7))]]⟩] :=
  C6_three_batch_entries ⟨0, 0, 0, 0⟩ _ [] [] [] [] 1 2 3 4 5 6 7 8 rfl

/-! ## `PytorchProfilerLogger._trace_handler` (claim C4) -/

/-- A `torch.profiler.profile` object as the trace handler sees it:
`export_chrome_trace` either writes the Chrome-trace JSON (returning its
contents) or raises, and `events()` yields the recorded events. -/
structure ProfObj where
  exportResult : PyRes String
  events : List String

/-- The mutable state of a `PytorchProfilerLogger` that `_trace_handler`
touches. -/
structure PytorchProfilerLogger where
  epoch_ : ℕ
  profiler_traces_ : List (String × String × List String)
  deriving DecidableEq, Repr

/-- Embeds `PytorchProfilerLogger._trace_handler(p)`.  `worldRank` is
`train.world_rank()`; `dirOk` tells whether `pytorch_profiler_trace`
exists or could be created (on failure the handler raises its own
`RuntimeError`).  On success the result carries the new state and the
list of files written (path, contents); a `RuntimeError` raised by
`export_chrome_trace` is swallowed. -/
def _trace_handler (self : PytorchProfilerLogger) (worldRank : ℕ) (dirOk : Bool)
    (p : ProfObj) : PyRes (PytorchProfilerLogger × List (String × String)) :=
  if !dirOk then .exn (.runtimeError "Can't create directory: pytorch_profiler_trace")
  else
    let filename :=
      "worker_" ++ toString worldRank ++ "_" ++ toString self.epoch_ ++ ".pt.trace.json"
    let path := "pytorch_profiler_trace/" ++ filename
    match p.exportResult with
    | .exn (.runtimeError _) => .ok (self, [])
    | .exn e => .exn e
    | .ok data =>
      .ok ({ self with
              profiler_traces_ := self.profiler_traces_ ++ [(filename, data, p.events)] },
           [(path, data)])

/-- C4: whenever the trace-ready handler runs (with the trace directory
available), it exports the trace via `export_chrome_trace` to
`pytorch_profiler_trace/worker_{rank}_{epoch}.pt.trace.json`, reads that
file back, and appends the triple (filename, file contents, profiler
events) to `profiler_traces_`; a `RuntimeError` raised by the export is
swallowed and leaves `profiler_traces_` unchanged. -/
theorem C4_trace_handler (self : PytorchProfilerLogger) (rank : ℕ) (p : ProfObj) :
    (∀ data, p.exportResult = .ok data →
      _trace_handler self rank true p =
        .ok ({ self with profiler_traces_ := self.profiler_traces_ ++
                 [("worker_" ++ toString rank ++ "_" ++ toString self.epoch_ ++
                     ".pt.trace.json", data, p.events)] },
             [("pytorch_profiler_trace/" ++ ("worker_" ++ toString rank ++ "_" ++
                 toString self.epoch_ ++ ".pt.trace.json"), data)])) ∧
    (∀ msg, p.exportResult = .exn (.runtimeError msg) →
      _trace_handler self rank true p = .ok (self, [])) := by
  constructor
  · intro data hexp
    simp [_trace_handler, hexp]
  · intro msg hexp
    simp [_trace_handler, hexp]

/-- C4 witness: both branches at epoch 2, rank 1. -/
theorem C4_witness :
    _trace_handler ⟨2, []⟩ 1 true ⟨.ok "tr", ["ev"]⟩ =
      .ok (⟨2, [("worker_1_2.pt.trace.json", "tr", ["ev"])]⟩,
           [("pytorch_profiler_trace/worker_1_2.pt.trace.json", "tr")]) ∧
    _trace_handler ⟨2, []⟩ 1 true ⟨.exn (.runtimeError "saved"), ["ev"]⟩ =
      .ok (⟨2, []⟩, []) := by
  constructor
  · have h := (C4_trace_handler ⟨2, []⟩ 1 ⟨.ok "tr", ["ev"]⟩).1 "tr" rfl
    exact h
  · exact (C4_trace_handler ⟨2, []⟩ 1 ⟨.exn (.runtimeError "saved"), ["ev"]⟩).2 "saved" rfl

/-! ## `TrainCheckpoint` (claims C2, C3, C8) -/

/-- Embeds `type(e).__name__`. -/
def errName : PyErr → String
  | .keyError _ => "KeyError"
  | .valueError _ => "ValueError"
  | .typeError _ => "TypeError"
  | .indexError _ => "IndexError"
  | .runtimeError _ => "RuntimeError"

/-- Embeds `str(e)`. -/
def errMsg : PyErr → String
  | .keyError m => m
  | .valueError m => m
  | .typeError m => m
  | .indexError m => m
  | .runtimeError m => m

/-- A value stored in a Ray checkpoint dict: the epoch number, a
serialized payload (`str`/`bytes`), or the `_keys` tuple. -/
inductive CkptVal where
  | num (q : ℚ)
  | payload (s : String)
  | keys (l : List String)
  deriving DecidableEq, Repr

/-- An in-memory `io` buffer: `io.StringIO` or `io.BytesIO`, with its
current contents.  `getvalue()` returns the contents; for a `StringIO`
that value is a `str`, for a `BytesIO` a `bytes`, so the buffer kind
remains visible in the value handed on. -/
inductive IOBuf where
  | stringIOBuf (contents : CkptVal)
  | bytesIOBuf (contents : CkptVal)
  deriving DecidableEq, Repr

/-- Embeds `TrainCheckpoint._get_io(f_key, value=None)`: a `StringIO` for
`f_history`, a `BytesIO` for every other key; `None` gives an empty
buffer. -/
def _get_io (fKey : String) (value : Option CkptVal) : IOBuf :=
  if fKey == "f_history" then .stringIOBuf (value.getD (.payload ""))
  else .bytesIOBuf (value.getD (.payload ""))

/-- The constructor arguments of `TrainCheckpoint` that its methods read.
The `f_*` flags are `Option Bool` (Python `None` or a bool).
`sink_is_print` records whether the sink is `print` (the default sink is
skorch's `noop`, so `false` by default), which is what
`Checkpoint._sink` tests. -/
structure TrainCheckpointCfg where
  f_params : Option Bool := some true
  f_optimizer : Option Bool := some true
  f_criterion : Option Bool := some true
  f_history : Option Bool := some true
  f_pickle : Option Bool := some false
  save_checkpoints : Bool := true
  load_checkpoint : Bool := true
  sink_is_print : Bool := false

/-- The default configuration of `TrainCheckpoint.__init__`. -/
def defaultCfg : TrainCheckpointCfg := {}

/-- Python truthiness of an `Option Bool` flag. -/
def isTruthy : Option Bool → Bool
  | some true => true
  | _ => false

/-- Embeds `Checkpoint._sink(text, verbose)` (skorch, external dependency): the
sink is invoked unless it is `print` and the net is not verbose.  Returns
the messages actually passed to the sink. -/
def sinkMsgs (cfg : TrainCheckpointCfg) (verbose : Bool) (text : String) : List String :=
  if cfg.sink_is_print && !verbose then [] else [text]

/-- Embeds `TrainCheckpoint._save_params(f, net, f_name, log_name)`: runs
`net.save_params(**{f_name: f})` and returns the buffer; any exception is
caught and reported through `self._sink` instead, returning `None`. -/
def _save_params (cfg : TrainCheckpointCfg) (f : IOBuf) (net : Net)
    (fName logName : String) : Option IOBuf × List String :=
  match net.serialize fName with
  | .ok content =>
    (some (match f with
           | .stringIOBuf _ => .stringIOBuf (.payload content)
           | .bytesIOBuf _ => .bytesIOBuf (.payload content)), [])
  | .exn e =>
    (none,
     sinkMsgs cfg net.verbose
       ("Unable to save " ++ logName ++ " to buffer, " ++ errName e ++ ": " ++ errMsg e))

/-- Embeds `kwargs_module` as produced by
`_check_f_arguments(**self._f_kwargs())` (skorch, external dependency):
`dir(self)` lists the `f_*` attributes alphabetically (`f_criterion`,
`f_history`, `f_optimizer`, `f_params`, `f_pickle`); `f_history` and
`f_pickle` go to `kwargs_other`; `f_params` is renamed `module_` and the
others get a trailing underscore. -/
def kwargsModule (cfg : TrainCheckpointCfg) : List (String × Option Bool) :=
  [("criterion_", cfg.f_criterion), ("optimizer_", cfg.f_optimizer),
   ("module_", cfg.f_params)]

/-- The first loop of `save_model` over `kwargs_module.items()`: an entry
is skipped only when its value is `None` (`if val is None: continue`); a
fresh buffer is created via `_get_io(f"f_{key}")`, the trailing underscore
is stripped, and `_save_params` runs.  Returns the `params` entries (in
order) and the accumulated sink log. -/
def processModules (cfg : TrainCheckpointCfg) (net : Net) :
    List (String × Option Bool) → List (String × Option IOBuf) × List String
  | [] => ([], [])
  | (key, val) :: rest =>
    match val with
    | none => processModules cfg net rest
    | some _ =>
      let f := _get_io ("f_" ++ key) none
      let key' := key.dropRight 1
      let r := _save_params cfg f net ("f_" ++ key') (key' ++ " state")
      let tail := processModules cfg net rest
      (("f_" ++ key', r.1) :: tail.1, r.2 ++ tail.2)

/-- The keyword arguments of the `train.save_checkpoint` call issued by
`save_model`: the `_keys` tuple, the epoch, and for each saved parameter
key the buffer whose `getvalue()` is passed. -/
structure SaveCall where
  keys : List String
  epoch : PyVal
  data : List (String × IOBuf)
  deriving DecidableEq, Repr

/-- Embeds `TrainCheckpoint.save_model(net)`.  Produces the `train.save_checkpoint`
call and the sink log, or the exception raised.  The `f_pickle` branch of
the source opens `open(f_pickle, 'wb')` where `f_pickle` is the
`io.BytesIO` returned by `_get_io("f_pickle")`, which raises a
`TypeError` (`open` needs a path, not a buffer); the epoch is
`net.history[-1]["epoch"]`. -/
def save_model (cfg : TrainCheckpointCfg) (net : Net) : PyRes (SaveCall × List String) :=
  let mp := processModules cfg net (kwargsModule cfg)
  let withHist :=
    if isTruthy cfg.f_history then
      let r := _save_params cfg (_get_io "f_history" none) net "f_history" "history"
      (mp.1 ++ [("f_history", r.1)], mp.2 ++ r.2)
    else mp
  if isTruthy cfg.f_pickle then
    .exn (.typeError "expected str, bytes or os.PathLike object, not BytesIO")
  else
    match net.history.getLast? with
    | none => .exn (.indexError "index -1 is out of range")
    | some row =>
      match lookupKey "epoch" row.entries with
      | none => .exn (.keyError "epoch")
      | some ep =>
        let keysToLoad := (withHist.1.map Prod.fst).filter (fun k => !(k == "f_pickle"))
        let data := withHist.1.filterMap (fun kv => kv.2.map (fun b => (kv.1, b)))
        .ok ({ keys := keysToLoad, epoch := ep, data := data }, withHist.2)

/-- The parameter keys `save_model` selects for saving, in order:
the module components whose flag is not `None` (`f_criterion`,
`f_optimizer`, `f_module`), then `f_history` when truthy. -/
def selectedParams (cfg : TrainCheckpointCfg) : List String :=
  ((kwargsModule cfg).filterMap (fun kv => kv.2.map (fun _ => "f_" ++ kv.1.dropRight 1)))
  ++ (if isTruthy cfg.f_history then ["f_history"] else [])

/-- Embeds `TrainCheckpoint.on_train_begin(net)`: when `load_checkpoint` is set
and `train.load_checkpoint()` yields a non-empty dict, pop `epoch` and
`_keys` (a missing key raises `ValueError`), and pass to
`net.load_params` the remaining entries whose key appears in `_keys`,
each wrapped by `_get_io`.  Returns the kwargs passed to
`net.load_params` (or `none` when the net is untouched) and the sink
log. -/
def TrainCheckpoint_on_train_begin (cfg : TrainCheckpointCfg)
    (checkpoint : Option (PyDict CkptVal)) (net : Net) :
    PyRes (Option (PyDict IOBuf) × List String) :=
  if !cfg.load_checkpoint then .ok (none, [])
  else
    match checkpoint with
    | none => .ok (none, [])
    | some ck =>
      if ck.isEmpty then .ok (none, [])
      else
        let log1 := sinkMsgs cfg net.verbose "Checkpoint found, loading..."
        match lookupKey "epoch" ck with
        | none =>
          .exn (.valueError
            "Invalid checkpoint. Ensure the checkpoint was created with train-sklearn. Expected 'epoch' and '_keys' keys.")
        | some _ep =>
          let ck1 := eraseKey "epoch" ck
          match lookupKey "_keys" ck1 with
          | none =>
            .exn (.valueError
              "Invalid checkpoint. Ensure the checkpoint was created with train-sklearn. Expected 'epoch' and '_keys' keys.")
          | some kv =>
            match kv with
            | .keys ks =>
              let ck2 := eraseKey "_keys" ck1
              let params := (ck2.filter (fun kv2 => ks.contains kv2.1)).map
                (fun kv2 => (kv2.1, _get_io kv2.1 (some kv2.2)))
              .ok (some params,
                   log1 ++ sinkMsgs cfg net.verbose "Loaded checkpoint")
            | _ => .exn (.typeError "argument is not iterable")

lemma isTruthy_none : isTruthy none = false := rfl

lemma isTruthy_some_false : isTruthy (some false) = false := rfl

lemma isTruthy_some_true : isTruthy (some true) = true := rfl

lemma dropRight_criterion : "criterion_".dropRight 1 = "criterion" := rfl

lemma dropRight_optimizer : "optimizer_".dropRight 1 = "optimizer" := rfl

lemma dropRight_module : "module_".dropRight 1 = "module" := rfl

/-- C3 counterexample input net: every component serializes fine and the
history has one epoch row. -/
def netC3 : Net :=
  { serialize := fun _ => .ok "blob",
    history := [⟨[("epoch", PyVal.num 5)], []⟩],
    verbose := false }

/-- C3 counterexample: with `f_pickle=True` (and every other argument at
its default), `save_model` raises a `TypeError` — `open()` is called on
the `io.BytesIO` returned by `_get_io("f_pickle")` — so nothing at all is
handed to `train.save_checkpoint`, against the claim's "for every call". -/
theorem C3_counterexample :
    save_model { f_pickle := some true } netC3 =
      .exn (.typeError "expected str, bytes or os.PathLike object, not BytesIO") := rfl

/-- C3 (amended): for every call to `TrainCheckpoint.save_model` whose
`f_pickle` flag is not truthy and whose component serializations succeed,
each selected component is serialized into a fresh in-memory buffer
(`io.StringIO` for the history, `io.BytesIO` for every other component)
and the buffers' contents are handed to Ray's `train.save_checkpoint`
API, together with the epoch number taken from the last history row and a
`_keys` tuple listing exactly the saved parameter keys; no component is
written to a local file path by `save_model` itself (the files-written
side effect simply does not exist in the success result). -/
theorem C3_save_model_amended (cfg : TrainCheckpointCfg) (net : Net) (c : String → String)
    (hpk : isTruthy cfg.f_pickle = false)
    (hser : ∀ fName, net.serialize fName = .ok (c fName))
    (row : EpochRow) (hrow : net.history.getLast? = some row)
    (ep : PyVal) (hep : lookupKey "epoch" row.entries = some ep) :
    save_model cfg net =
      .ok ({ keys := selectedParams cfg,
             epoch := ep,
             data := (selectedParams cfg).map (fun n =>
               (n, if n == "f_history" then IOBuf.stringIOBuf (.payload (c n))
                   else IOBuf.bytesIOBuf (.payload (c n)))) }, []) := by
  obtain ⟨fp, fo, fc, fh, fpk, sc, lc, sp⟩ := cfg
  simp only [TrainCheckpointCfg.f_pickle] at hpk
  rcases fh with _ | bh
  case' some => cases bh
  all_goals
    rcases fp with _ | bp <;> rcases fo with _ | bo <;> rcases fc with _ | bc <;>
      simp [save_model, processModules, kwargsModule, selectedParams, _save_params,
        _get_io, isTruthy_none, isTruthy_some_false, isTruthy_some_true, sinkMsgs,
        hser, hrow, hep, hpk,
        dropRight_criterion, dropRight_optimizer, dropRight_module]

/-- C3 witness (for the amended claim). -/
theorem C3_witness :
    save_model defaultCfg netC3 =
      .ok ({ keys := selectedParams defaultCfg,
             epoch := PyVal.num 5,
             data := (selectedParams defaultCfg).map (fun n =>
               (n, if n == "f_history" then IOBuf.stringIOBuf (.payload "blob")
                   else IOBuf.bytesIOBuf (.payload "blob"))) }, []) :=
  C3_save_model_amended defaultCfg netC3 (fun _ => "blob") rfl (fun _ => rfl)
    ⟨[("epoch", PyVal.num 5)], []⟩ rfl (PyVal.num 5) rfl

/-- What claim C2 asserts of one component of a `save_model` result: if
`net.save_params` raises for it, the exception is logged via the sink and
the component is omitted from the data handed to `train.save_checkpoint`;
if it succeeds, the component is present with its serialized contents in
the right kind of buffer. -/
def componentSpec (net : Net) (n logName : String) (call : SaveCall)
    (log : List String) : Prop :=
  (∀ e, net.serialize n = .exn e →
    lookupKey n call.data = none ∧
    ("Unable to save " ++ logName ++ " to buffer, " ++ errName e ++ ": " ++ errMsg e)
      ∈ log) ∧
  (∀ content, net.serialize n = .ok content →
    lookupKey n call.data =
      some (if n == "f_history" then IOBuf.stringIOBuf (.payload content)
            else IOBuf.bytesIOBuf (.payload content)))

/-- C2: checkpoint saving is best-effort: with the default
`TrainCheckpoint` arguments (the sink is skorch's `noop`, not `print`),
`save_model` completes with a `train.save_checkpoint` call for every
combination of failing components; each component whose
`net.save_params` call raises has the exception caught inside
`_save_params` and logged via the sink instead of propagating and is
omitted from the data handed to `train.save_checkpoint`, and the
remaining components are still saved. -/
theorem C2_best_effort_save (net : Net)
    (row : EpochRow) (hrow : net.history.getLast? = some row)
    (ep : PyVal) (hep : lookupKey "epoch" row.entries = some ep) :
    ∃ call log, save_model defaultCfg net = .ok (call, log) ∧
      componentSpec net "f_criterion" "criterion state" call log ∧
      componentSpec net "f_optimizer" "optimizer state" call log ∧
      componentSpec net "f_module" "module state" call log ∧
      componentSpec net "f_history" "history" call log := by
  refine ⟨⟨["f_criterion", "f_optimizer", "f_module", "f_history"], ep,
           ["f_criterion", "f_optimizer", "f_module", "f_history"].filterMap (fun n =>
             match net.serialize n with
             | .ok content =>
               some (n, if n == "f_history" then IOBuf.stringIOBuf (.payload content)
                        else IOBuf.bytesIOBuf (.payload content))
             | .exn _ => none)⟩,
          [("f_criterion", "criterion state"), ("f_optimizer", "optimizer state"),
           ("f_module", "module state"), ("f_history", "history")].filterMap (fun p =>
             match net.serialize p.1 with
             | .ok _ => none
             | .exn e => some ("Unable to save " ++ p.2 ++ " to buffer, " ++
                 errName e ++ ": " ++ errMsg e)),
          ?_, ?_, ?_, ?_, ?_⟩ <;>
  cases h1 : net.serialize "f_criterion" <;> cases h2 : net.serialize "f_optimizer" <;>
    cases h3 : net.serialize "f_module" <;> cases h4 : net.serialize "f_history" <;>
    simp [save_model, processModules, kwargsModule, _save_params, _get_io,
      isTruthy_none, isTruthy_some_false, isTruthy_some_true,
      sinkMsgs, componentSpec, defaultCfg, hrow, hep, h1, h2, h3, h4, lookupKey,
      dropRight_criterion, dropRight_optimizer, dropRight_module]

/-- C2 witness input net: the optimizer fails to serialize, everything
else succeeds. -/
def netC2 : Net :=
  { serialize := fun n =>
      if n == "f_optimizer" then .exn (.runtimeError "boom") else .ok "blob",
    history := [⟨[("epoch", PyVal.num 7)], []⟩],
    verbose := false }

theorem C2_witness :
    ∃ call log, save_model defaultCfg netC2 = .ok (call, log) ∧
      componentSpec netC2 "f_criterion" "criterion state" call log ∧
      componentSpec netC2 "f_optimizer" "optimizer state" call log ∧
      componentSpec netC2 "f_module" "module state" call log ∧
      componentSpec netC2 "f_history" "history" call log :=
  C2_best_effort_save netC2 ⟨[("epoch", PyVal.num 7)], []⟩ rfl (PyVal.num 7) rfl

/-! ### Claim C8 -/

lemma lookupKey_eraseKey_ne {α : Type} {k k' : String} (h : k ≠ k') :
    ∀ d : PyDict α, lookupKey k (eraseKey k' d) = lookupKey k d
  | [] => rfl
  | (k0, v) :: rest => by
    rw [eraseKey]
    by_cases h0 : k0 = k'
    · rw [if_pos h0, lookupKey, if_neg (fun e : k0 = k => h (e ▸ h0))]
    · rw [if_neg h0, lookupKey, lookupKey]
      by_cases hk : k0 = k
      · rw [if_pos hk, if_pos hk]
      · rw [if_neg hk, if_neg hk]
        exact lookupKey_eraseKey_ne h rest

/-- C8: when `load_checkpoint` is true and `train.load_checkpoint()`
returns a non-empty dictionary, `TrainCheckpoint.on_train_begin` raises
`ValueError` exactly when that dictionary lacks an `epoch` or a `_keys`
entry; otherwise it passes to `net.load_params` exactly those remaining
checkpoint entries whose key appears in `_keys`, each wrapped in an io
buffer by `_get_io`; when `load_checkpoint` is false or the checkpoint is
empty, it returns without touching the net. -/
theorem C8_on_train_begin_loading (cfg : TrainCheckpointCfg) (net : Net)
    (d : PyDict CkptVal) :
    (cfg.load_checkpoint = false →
      TrainCheckpoint_on_train_begin cfg (some d) net = .ok (none, [])) ∧
    (TrainCheckpoint_on_train_begin cfg none net = .ok (none, [])) ∧
    (TrainCheckpoint_on_train_begin cfg (some []) net = .ok (none, [])) ∧
    (cfg.load_checkpoint = true → d ≠ [] →
      ((∃ m, TrainCheckpoint_on_train_begin cfg (some d) net = .exn (.valueError m)) ↔
        (lookupKey "epoch" d = none ∨ lookupKey "_keys" d = none))) ∧
    (cfg.load_checkpoint = true → d ≠ [] →
      ∀ ep ks, lookupKey "epoch" d = some ep →
        lookupKey "_keys" (eraseKey "epoch" d) = some (.keys ks) →
        ∃ log, TrainCheckpoint_on_train_begin cfg (some d) net =
          .ok (some (((eraseKey "_keys" (eraseKey "epoch" d)).filter
                (fun kv => ks.contains kv.1)).map
                  (fun kv => (kv.1, _get_io kv.1 (some kv.2)))), log)) := by
  have hkeys_ne : ("_keys" : String) ≠ "epoch" := by decide
  refine ⟨?_, ?_, ?_, ?_, ?_⟩
  · intro hl
    simp [TrainCheckpoint_on_train_begin, hl]
  · by_cases hl : cfg.load_checkpoint <;> simp [TrainCheckpoint_on_train_begin, hl]
  · by_cases hl : cfg.load_checkpoint <;> simp [TrainCheckpoint_on_train_begin, hl]
  · intro hl hne
    have hemp : d.isEmpty = false := by
      cases d with
      | nil => exact absurd rfl hne
      | cons a l => rfl
    rw [TrainCheckpoint_on_train_begin]
    rw [hl]
    simp only [Bool.not_true, Bool.false_eq_true, if_false, hemp]
    cases he : lookupKey "epoch" d with
    | none => simp
    | some ep =>
      simp only
      cases hk : lookupKey "_keys" (eraseKey "epoch" d) with
      | none =>
        rw [lookupKey_eraseKey_ne hkeys_ne] at hk
        simp [hk]
      | some kv =>
        rw [lookupKey_eraseKey_ne hkeys_ne] at hk
        cases kv <;> simp [hk]
  · intro hl hne ep ks he hk
    have hemp : d.isEmpty = false := by
      cases d with
      | nil => exact absurd rfl hne
      | cons a l => rfl
    refine ⟨sinkMsgs cfg net.verbose "Checkpoint found, loading..." ++
            sinkMsgs cfg net.verbose "Loaded checkpoint", ?_⟩
    rw [TrainCheckpoint_on_train_begin, hl]
    simp only [Bool.not_true, Bool.false_eq_true, if_false, hemp]
    rw [he]
    simp only
    rw [lookupKey_eraseKey_ne hkeys_ne] at hk ⊢
    rw [hk]

/-- C8 witness input: a checkpoint with `epoch`, `_keys`, one loadable
component and one stray entry not listed in `_keys`. -/
def ckptEx8 : PyDict CkptVal :=
  [("epoch", CkptVal.num 3), ("_keys", CkptVal.keys ["f_module"]),
   ("f_module", CkptVal.payload "w"), ("junk", CkptVal.payload "j")]

/-- C8 witness net. -/
def netC8 : Net :=
  { serialize := fun _ => .ok "blob",
    history := [],
    verbose := false }

theorem C8_witness :
    ∃ log, TrainCheckpoint_on_train_begin defaultCfg (some ckptEx8) netC8 =
      .ok (some (((eraseKey "_keys" (eraseKey "epoch" ckptEx8)).filter
            (fun kv => ["f_module"].contains kv.1)).map
              (fun kv => (kv.1, _get_io kv.1 (some kv.2)))), log) :=
  (C8_on_train_begin_loading defaultCfg netC8 ckptEx8).2.2.2.2 rfl
    (by simp [ckptEx8]) (CkptVal.num 3) ["f_module"] rfl rfl

end TrainSklearn
